import Mathlib

/-!
# Verification of the rate-controlled raw traffic generator

This file gives a shallow embedding, in Lean 4, of the core of the Go
traffic generator (the `main` of the sender program): configuration
validation, the inter-send delay computation, the stop channel, the
sender goroutine loop, the lock-protected statistics counters, the
periodic reporter tick, and the frame serialization, together with
theorems settling the specification claims about them.

Conventions of the embedding:
* Go `uint64` counters are modelled as `Nat` (the program only ever
  increments them, so no wraparound is reachable in any claim here).
* Go `time` instants and durations are abstract `Nat` ticks.
* Fallible external calls (pcap open, interface lookup, address parsing,
  per-iteration serialization, packet transmission) are modelled by
  Boolean/`Option` inputs supplied by the environment.
* Floating-point report arithmetic is modelled exactly over `ℚ`; the
  claims about it are formula-level identities.
-/

/-! ## Inter-send delay (source line 182)

`sleepDuration := time.Duration(1000000/(*pps)) * time.Microsecond`

For a positive `pps`, Go integer division truncates, so the delay is
`1000000 / pps` whole microseconds. -/

/-- The computed inter-send delay in whole microseconds, for a positive
configured rate, exactly as computed at source line 182 (`1000000/(*pps)`
with Go integer division, i.e. floor division for positive operands). -/
def sleepDurationUs (pps : Nat) : Nat :=
  1000000 / pps

/-- The delay computation on the raw `int` flag value. Go `/` panics on a
zero divisor (there is no value to return), which is modelled as `none`;
for nonzero divisors Go truncates toward zero, which is `Int.div`. -/
def sleepDurationUsChecked (pps : Int) : Option Int :=
  if pps = 0 then none else some (Int.tdiv 1000000 pps)

/-! ## Startup validation performed by `main` (source lines 34-122)

`main` aborts (log.Fatalf) on: empty interface name, pcap open failure,
interface lookup failure, an invalid `-destmac` value (only when the flag
is nonempty; an empty flag selects the broadcast address), an unparsable
source or destination IP, and a checksum-binding failure.  The outcomes
of the external calls are inputs of the model.  Note that the parsed
flags `pps`, `size`, `duration` and `report` are never inspected by any
of these checks. -/

/-- The parsed flags plus the outcomes of the external calls that the
startup sequence of `main` depends on. -/
structure MainInputs where
  interfaceName : String
  destmacFlag : String
  pps : Int
  payloadSize : Nat
  durationNs : Int
  reportIntervalSec : Int
  openLiveOk : Bool
  ifaceLookupOk : Bool
  destMACParses : Bool
  srcIPParses : Bool
  dstIPParses : Bool
  checksumBindOk : Bool
deriving DecidableEq

/-- The fatal-error checks `main` performs before starting any goroutine,
in source order (lines 34, 56, 63, 77, 84, 89, 119).  Returns the
`log.Fatalf` message of the first failing check, or `Except.ok ()` when
the workers are started. -/
def startupValidation (i : MainInputs) : Except String Unit :=
  if i.interfaceName = "" then Except.error "Please specify an interface name with -interface"
  else if i.openLiveOk = false then Except.error "Failed to open device"
  else if i.ifaceLookupOk = false then Except.error "Failed to get interface"
  else if i.destmacFlag ≠ "" ∧ i.destMACParses = false then Except.error "Invalid MAC address format"
  else if i.srcIPParses = false then Except.error "Invalid source IP address"
  else if i.dstIPParses = false then Except.error "Invalid destination IP address"
  else if i.checksumBindOk = false then Except.error "Failed to set network layer for checksum"
  else Except.ok ()

/-- A set of inputs in which every external call succeeds and every
address is valid, but the configured packet rate is zero. -/
def zeroRateInputs : MainInputs :=
  { interfaceName := "eth0"
    destmacFlag := ""
    pps := 0
    payloadSize := 1400
    durationNs := 0
    reportIntervalSec := 1
    openLiveOk := true
    ifaceLookupOk := true
    destMACParses := true
    srcIPParses := true
    dstIPParses := true
    checksumBindOk := true }

/-! ## The stop channel (source lines 144, 196, 230)

`stopChan := make(chan struct{})` is fired by `close(stopChan)` at two
call sites: the sender's duration check (line 196) and `main`'s shutdown
path after the interrupt (line 230).  Neither call site guards the
close.  In Go, `close` on an already-closed channel panics. -/

/-- Go `close(stopChan)` on a channel whose closed-flag is `st`: closing
an open channel closes it; closing a closed channel panics (modelled as
`Except.error` carrying the Go runtime panic message). -/
def fireStop (st : Bool) : Except String Bool :=
  if st then Except.error "close of closed channel" else Except.ok true

/-- Running a sequence of fire events against the stop channel, starting
from closed-state `st`.  Each event is an unconditional `close`, exactly
as at source lines 196 and 230. -/
def fireStopSeq (st : Bool) : Nat → Except String Bool
  | 0 => Except.ok st
  | n + 1 => Except.bind (fireStop st) (fun st1 => fireStopSeq st1 n)

/-! ## The controller's wait (source line 228)

After starting both goroutines, `main` executes the single blocking
receive `<-sigChan`.  It does not select on `stopChan`: the only event
that can wake it is an interrupt delivery. -/

/-- Whether the blocking wait at source line 228 returns, as a function
of whether an interrupt was delivered and whether the stop channel has
been fired.  Faithful to `<-sigChan`: a receive on the signal channel
completes exactly when a signal arrives; the stop channel is not
consulted. -/
def lifecycleWaitReturns (interruptArrived stopFired : Bool) : Bool :=
  interruptArrived

/-- Whether `main` reaches its final snapshot/summary/exit code (source
lines 229-242), which it does exactly when the wait at line 228 returns. -/
def lifecycleCompletesShutdown (interruptArrived stopFired : Bool) : Bool :=
  lifecycleWaitReturns interruptArrived stopFired

/-! ## Frame construction (source lines 94-131, 200-209)

The template layers (`eth`, `ip`, `udp`) and the payload buffer are
built once before the goroutines start and never mutated afterwards;
every iteration serializes the same layers with
`FixLengths: true, ComputeChecksums: true` into a fresh wire image:
14 Ethernet header bytes, a 20-byte option-free IPv4 header, an 8-byte
UDP header, and the payload.  Byte values are `Nat`s below 256. -/

/-- A six-byte link-layer address (`net.HardwareAddr`). -/
structure MACAddr where
  b0 : Nat
  b1 : Nat
  b2 : Nat
  b3 : Nat
  b4 : Nat
  b5 : Nat
deriving DecidableEq

/-- A four-byte IPv4 address. -/
structure IPv4Addr where
  o0 : Nat
  o1 : Nat
  o2 : Nat
  o3 : Nat
deriving DecidableEq

/-- The immutable frame template: the fields of the `eth`, `ip` and
`udp` layers set at source lines 99-116 plus the payload buffer of
line 95.  The random payload content is an opaque byte list here. -/
structure FrameTemplate where
  srcMAC : MACAddr
  dstMAC : MACAddr
  srcIP : IPv4Addr
  dstIP : IPv4Addr
  srcPort : Nat
  dstPort : Nat
  payload : List Nat
deriving DecidableEq

/-- The six wire bytes of a link-layer address. -/
def macBytes (m : MACAddr) : List Nat :=
  [m.b0, m.b1, m.b2, m.b3, m.b4, m.b5]

/-- The four wire bytes of an IPv4 address. -/
def ipBytes (a : IPv4Addr) : List Nat :=
  [a.o0, a.o1, a.o2, a.o3]

/-- A 16-bit field serialized big-endian as two bytes. -/
def u16Bytes (v : Nat) : List Nat :=
  [v / 256 % 256, v % 256]

/-- The byte list regrouped as big-endian 16-bit words for
checksumming, an odd trailing byte padded with a zero low byte. -/
def toWords16 : List Nat → List Nat
  | [] => []
  | [b] => [b * 256]
  | b1 :: b2 :: rest => (b1 * 256 + b2) :: toWords16 rest

/-- The RFC 1071 ones-complement checksum over a byte list: sum the
16-bit words, fold the carries back in, and complement. -/
def checksum16 (bytes : List Nat) : Nat :=
  let s0 := (toWords16 bytes).foldl (fun a w => a + w) 0
  let s1 := s0 % 65536 + s0 / 65536
  let s2 := s1 % 65536 + s1 / 65536
  65535 - s2 % 65536

/-- The 14-byte Ethernet header: destination address, source address,
EtherType IPv4 (`0x0800`). -/
def ethHeader (t : FrameTemplate) : List Nat :=
  macBytes t.dstMAC ++ macBytes t.srcMAC ++ u16Bytes 2048

/-- The option-free IPv4 header with a zeroed checksum field:
version/IHL `0x45`, TOS 0, total length fixed from the payload
(20 + 8 + payload), zero id and fragment fields, TTL 64, protocol
UDP (17), zero checksum, then the two addresses. -/
def ipv4HeaderZeroCk (t : FrameTemplate) : List Nat :=
  [69, 0] ++ u16Bytes (20 + 8 + t.payload.length) ++ [0, 0] ++ [0, 0] ++ [64, 17] ++
    [0, 0] ++ ipBytes t.srcIP ++ ipBytes t.dstIP

/-- The 20-byte IPv4 header with its checksum computed over the
zero-checksum header (`ComputeChecksums: true`). -/
def ipv4Header (t : FrameTemplate) : List Nat :=
  [69, 0] ++ u16Bytes (20 + 8 + t.payload.length) ++ [0, 0] ++ [0, 0] ++ [64, 17] ++
    u16Bytes (checksum16 (ipv4HeaderZeroCk t)) ++ ipBytes t.srcIP ++ ipBytes t.dstIP

/-- The 8-byte UDP header with a zeroed checksum field: source port,
destination port, UDP length fixed from the payload (`FixLengths`). -/
def udpHeaderZeroCk (t : FrameTemplate) : List Nat :=
  u16Bytes t.srcPort ++ u16Bytes t.dstPort ++ u16Bytes (8 + t.payload.length) ++ [0, 0]

/-- The UDP checksum over the IPv4 pseudo-header, the zero-checksum UDP
header and the payload (the binding established by
`SetNetworkLayerForChecksum` at source line 119). -/
def udpChecksum (t : FrameTemplate) : Nat :=
  checksum16 (ipBytes t.srcIP ++ ipBytes t.dstIP ++ [0, 17] ++
    u16Bytes (8 + t.payload.length) ++ udpHeaderZeroCk t ++ t.payload)

/-- The 8-byte UDP header with its computed checksum. -/
def udpHeader (t : FrameTemplate) : List Nat :=
  u16Bytes t.srcPort ++ u16Bytes t.dstPort ++ u16Bytes (8 + t.payload.length) ++
    u16Bytes (udpChecksum t)

/-- One `gopacket.SerializeLayers(buf, opts, &eth, &ip, &udp, payload)`
call (source line 201): the full wire image of the frame, a pure
function of the immutable template. -/
def buildFrame (t : FrameTemplate) : List Nat :=
  ethHeader t ++ ipv4Header t ++ udpHeader t ++ t.payload

/-! ## The sender goroutine loop (source lines 180-225)

Each pass of the `for`/`select` loop: if `stopChan` is closed the
goroutine returns; otherwise, if a duration is configured and the
current time is past `endTime`, the goroutine itself closes `stopChan`
and returns; otherwise it serializes (failure: `log.Printf` +
`continue`), transmits (failure: `log.Printf` + `continue`), and on
success increments both counters under the mutex, then sleeps.
External events (the interrupt handler closing `stopChan`) and the
outcomes of the fallible calls are supplied per iteration by a
`SenderEnv`; `time.Sleep` does not change any modelled state. -/

/-- The configuration the sender goroutine closes over: the immutable
frame template, the start instant, and the `-duration` flag value
(`0` means indefinite).  `endTime` is `startTime + duration`
(source line 186). -/
structure SenderConfig where
  template : FrameTemplate
  startTime : Nat
  duration : Nat
deriving DecidableEq

/-- The mutable state visible to the sender: the two counters, whether
`stopChan` has been closed, whether the sender itself closed it from
its duration check, and whether the goroutine has returned. -/
structure SenderState where
  packetsSent : Nat
  bytesSent : Nat
  stopClosed : Bool
  firedByDuration : Bool
  returned : Bool
deriving DecidableEq

/-- The environment of one loop pass: whether the interrupt path closed
`stopChan` before this pass, the current time read by `time.Now()`, and
whether the serialize and transmit calls succeed. -/
structure SenderEnv where
  externalStop : Bool
  now : Nat
  serializeOk : Bool
  transmitOk : Bool
deriving DecidableEq

/-- What one loop pass did. -/
inductive IterEffect where
  | exitedOnStop
  | exitedOnDuration
  | warnedSerialize
  | warnedSend
  | sent (len : Nat)
deriving DecidableEq

/-- One pass of the sender loop (source lines 189-224). -/
def senderIteration (cfg : SenderConfig) (st : SenderState) (env : SenderEnv) :
    SenderState × IterEffect :=
  let st := if env.externalStop then { st with stopClosed := true } else st
  if st.stopClosed then ({ st with returned := true }, IterEffect.exitedOnStop)
  else if 0 < cfg.duration ∧ cfg.startTime + cfg.duration < env.now then
    ({ st with stopClosed := true, firedByDuration := true, returned := true },
      IterEffect.exitedOnDuration)
  else if env.serializeOk = false then (st, IterEffect.warnedSerialize)
  else if env.transmitOk = false then (st, IterEffect.warnedSend)
  else
    ({ st with packetsSent := st.packetsSent + 1,
               bytesSent := st.bytesSent + (buildFrame cfg.template).length },
      IterEffect.sent (buildFrame cfg.template).length)

/-- Running the sender loop over a list of per-pass environments,
stopping as soon as the goroutine returns. -/
def senderRun (cfg : SenderConfig) (st : SenderState) : List SenderEnv → SenderState
  | [] => st
  | env :: envs =>
    let st1 := (senderIteration cfg st env).1
    if st1.returned then st1 else senderRun cfg st1 envs

/-- The state of the sender goroutine at launch (counters zero, channel
open, nothing fired, still running). -/
def senderInit : SenderState :=
  { packetsSent := 0, bytesSent := 0, stopClosed := false,
    firedByDuration := false, returned := false }

/-! ## The lock-protected counters (source lines 138-141, 156-164, 216-219, 235-238)

`packetsSent` and `bytesSent` are guarded by the single mutex `mu`.
The sender updates them in the critical section
`mu.Lock(); packetsSent++; bytesSent += n; mu.Unlock()`; the reporter
and the final summary read them inside `mu.Lock() ... mu.Unlock()`.
To verify the lock discipline itself, each machine operation inside a
critical section is a separate small step, and the interleaving of the
sender thread with a reader thread is an arbitrary schedule; a step is
enabled only when Go would not block it (a lock acquisition requires
the mutex to be free, and each in-section step requires its thread to
hold the mutex). -/

/-- Who holds the mutex `mu`. -/
inductive LockOwner where
  | free
  | sender
  | reader
deriving DecidableEq

/-- The shared state: the two counters, the mutex owner, and whether the
sender is between its two increments (`packetsSent++` done,
`bytesSent += n` not yet). -/
structure AggState where
  packetsSent : Nat
  bytesSent : Nat
  owner : LockOwner
  midAdd : Bool
deriving DecidableEq

/-- The machine operations touching the shared state: the four steps of
the sender's critical section (lines 216-219) and the three steps of a
reader's critical section (lines 157-164 and 235-238; the read returns
the pair). -/
inductive AggOp where
  | senderLock
  | senderIncPackets
  | senderIncBytes (n : Nat)
  | senderUnlock
  | readerLock
  | readerRead
  | readerUnlock
deriving DecidableEq

/-- One small step: `some` of the next state when the operation is
enabled, `none` when Go would block (or, for the increment steps, when
the schedule violates the program order of the critical section). -/
def aggStep (s : AggState) : AggOp → Option AggState
  | AggOp.senderLock =>
    if s.owner = LockOwner.free then some { s with owner := LockOwner.sender } else none
  | AggOp.senderIncPackets =>
    if s.owner = LockOwner.sender ∧ s.midAdd = false then
      some { s with packetsSent := s.packetsSent + 1, midAdd := true }
    else none
  | AggOp.senderIncBytes n =>
    if s.owner = LockOwner.sender ∧ s.midAdd = true then
      some { s with bytesSent := s.bytesSent + n, midAdd := false }
    else none
  | AggOp.senderUnlock =>
    if s.owner = LockOwner.sender ∧ s.midAdd = false then
      some { s with owner := LockOwner.free }
    else none
  | AggOp.readerLock =>
    if s.owner = LockOwner.free then some { s with owner := LockOwner.reader } else none
  | AggOp.readerRead =>
    if s.owner = LockOwner.reader then some s else none
  | AggOp.readerUnlock =>
    if s.owner = LockOwner.reader then some { s with owner := LockOwner.free } else none

/-- Running a schedule of small steps; `none` as soon as a scheduled
step is not enabled. -/
def aggRun (s : AggState) : List AggOp → Option AggState
  | [] => some s
  | op :: ops =>
    match aggStep s op with
    | some s1 => aggRun s1 ops
    | none => none

/-- The shared state at process start. -/
def aggInit : AggState :=
  { packetsSent := 0, bytesSent := 0, owner := LockOwner.free, midAdd := false }

/-- The byte counts of the completed `add` calls of a schedule, in
order (one completed `add` per `senderIncBytes` step). -/
def addsOf : List AggOp → List Nat
  | [] => []
  | AggOp.senderIncBytes n :: ops => n :: addsOf ops
  | _ :: ops => addsOf ops

/-! ## The reporter tick (source lines 154-171)

On each ticker tick the reporter snapshots both counters under the
mutex, subtracts the previous snapshot, and computes the interval
bitrate in Mbps, the cumulative average packet rate, and the total in
MB.  The Go `float64` arithmetic is modelled exactly over `ℚ`
(subtraction happens on `uint64`, hence `Nat` here). -/

/-- The reporter's memory between ticks: the previous snapshot
(`lastPackets`, `lastBytes`, source lines 151-152). -/
structure ReporterState where
  lastPackets : Nat
  lastBytes : Nat
deriving DecidableEq

/-- Everything one tick computes (source lines 157-171). -/
structure TickOutput where
  intervalPackets : Nat
  intervalBytes : Nat
  bitrateMbps : ℚ
  avgPacketRate : ℚ
  totalMB : ℚ
  next : ReporterState
deriving DecidableEq

/-- One reporter tick: `reportInterval` is the `-report` flag,
`elapsedSec` is `time.Since(startTime).Seconds()`, `packetsSent` and
`bytesSent` are the snapshot taken under the mutex, `st` the previous
snapshot. -/
def reporterTick (reportInterval : Nat) (elapsedSec : ℚ) (packetsSent bytesSent : Nat)
    (st : ReporterState) : TickOutput :=
  { intervalPackets := packetsSent - st.lastPackets
    intervalBytes := bytesSent - st.lastBytes
    bitrateMbps := ((bytesSent - st.lastBytes : Nat) : ℚ) * 8 / (reportInterval : ℚ) / 1000000
    avgPacketRate := (packetsSent : ℚ) / elapsedSec
    totalMB := (bytesSent : ℚ) / 1000000
    next := { lastPackets := packetsSent, lastBytes := bytesSent } }

/-- The consistency invariant tying the shared state to the completed
`add` calls of the schedule executed so far: `packetsSent` counts the
completed adds plus a possible in-flight one, `bytesSent` sums the
completed adds, and an in-flight add implies the sender holds the
mutex. -/
def AggInv (s : AggState) (adds : List Nat) : Prop :=
  s.packetsSent = adds.length + (if s.midAdd then 1 else 0) ∧
  s.bytesSent = adds.sum ∧
  (s.midAdd = true → s.owner = LockOwner.sender)

/-- A concrete frame template for witness evaluation: broadcast
destination, the default ports, a three-byte payload. -/
def sampleTemplate : FrameTemplate :=
  { srcMAC := ⟨16, 32, 48, 64, 80, 96⟩
    dstMAC := ⟨255, 255, 255, 255, 255, 255⟩
    srcIP := ⟨192, 168, 1, 2⟩
    dstIP := ⟨255, 255, 255, 255⟩
    srcPort := 12345
    dstPort := 8125
    payload := [7, 7, 7] }

/-- A concrete sender configuration (indefinite run) for witness
evaluation. -/
def sampleConfig : SenderConfig :=
  { template := sampleTemplate, startTime := 0, duration := 0 }

/-! ## Theorems -/

/-- C1: the claim says a non-positive configured packet rate is rejected
at configuration time, before any worker starts.  The code performs no
such check: with every external call succeeding and `pps = 0`, the
startup validation passes (the workers are started), while the delay
computation `1000000/(*pps)` — reached only inside the already-running
sender goroutine — has no value (Go panics on a zero divisor).  This
theorem evaluates the embedded startup sequence at that failing input. -/
theorem rate_zero_not_rejected_at_startup :
    startupValidation zeroRateInputs = Except.ok () ∧
    zeroRateInputs.pps = 0 ∧
    sleepDurationUsChecked zeroRateInputs.pps = none := by
  refine ⟨rfl, rfl, rfl⟩

/-- C2: the claim says firing the StopSignal more than once is a no-op
and never an error.  Both fire sites are unconditional `close(stopChan)`
calls, and Go panics on closing a closed channel: one fire succeeds,
a second fire is a runtime error, not a no-op. -/
theorem stop_double_fire_errors :
    fireStopSeq false 1 = Except.ok true ∧
    fireStopSeq false 2 = Except.error "close of closed channel" :=
  ⟨rfl, rfl⟩

/-- C3: the claim says the Lifecycle Controller wakes on either an
external interrupt or the StopSignal fired by the Sender's duration
check.  The wait at source line 228 is `<-sigChan` alone: with the stop
signal fired but no interrupt delivered, `main` does not wake and never
reaches the final snapshot/summary/exit, while an interrupt does wake
it. -/
theorem duration_elapse_does_not_wake_controller :
    lifecycleCompletesShutdown false true = false ∧
    lifecycleCompletesShutdown true false = true :=
  ⟨rfl, rfl⟩

/-- C4 (counterexample): the claim asserts the computed inter-send delay
is strictly positive for every rate > 0, but at the concrete rate
1000001 the truncated division `1000000/1000001` computes a delay of
zero. -/
theorem sleep_delay_zero_above_one_million :
    0 < (1000001 : Nat) ∧ ¬ 0 < sleepDurationUs 1000001 := by
  decide

/-- C4 (amended): for every rate > 0 the computed inter-send delay
equals the reciprocal of the rate truncated to whole microseconds,
`⌊1000000/rate⌋`, and it is strictly positive exactly when the rate is
at most 1000000 (for larger rates the computed delay is zero). -/
theorem sleep_delay_reciprocal (pps : Nat) (h : 0 < pps) :
    sleepDurationUs pps = 1000000 / pps ∧
    (0 < sleepDurationUs pps ↔ pps ≤ 1000000) := by
  refine ⟨rfl, ?_⟩
  constructor
  · intro h0
    by_contra hr
    push_neg at hr
    have hz : 1000000 / pps = 0 := Nat.div_eq_of_lt hr
    rw [sleepDurationUs, hz] at h0
    exact lt_irrefl 0 h0
  · intro hle
    exact Nat.div_pos hle h

/-- Witness for C4 (amended) at the configured default rate 1000. -/
theorem sleep_delay_reciprocal_witness :
    sleepDurationUs 1000 = 1000000 / 1000 ∧
    (0 < sleepDurationUs 1000 ↔ 1000 ≤ 1000000) :=
  sleep_delay_reciprocal 1000 (by decide)

/-- C5: a failed iteration of the sender has no effect at all: if the
serialization or the transmit call fails on a pass whose stop and
duration checks do not trigger, the state (both counters, the stop
channel, the duration flag, the running flag) is exactly unchanged, the
effect is the corresponding warning log line, the StopSignal is not
fired, and the remaining run proceeds exactly as if the failed pass had
not happened. -/
theorem failed_iteration_no_effect (cfg : SenderConfig) (st : SenderState) (env : SenderEnv)
    (hret : st.returned = false)
    (hstop : st.stopClosed = false)
    (hext : env.externalStop = false)
    (hdur : ¬ (0 < cfg.duration ∧ cfg.startTime + cfg.duration < env.now))
    (hfail : env.serializeOk = false ∨ env.transmitOk = false) :
    (senderIteration cfg st env).1 = st ∧
    ((senderIteration cfg st env).2 = IterEffect.warnedSerialize ∨
      (senderIteration cfg st env).2 = IterEffect.warnedSend) ∧
    (senderIteration cfg st env).1.stopClosed = false ∧
    ∀ envs, senderRun cfg st (env :: envs) = senderRun cfg st envs := by
  have hiter : senderIteration cfg st env = (st, IterEffect.warnedSerialize) ∨
      senderIteration cfg st env = (st, IterEffect.warnedSend) := by
    rcases hfail with hf | hf
    · left
      simp [senderIteration, hext, hstop, hdur, hf]
    · rcases hs : env.serializeOk with _ | _
      · left
        simp [senderIteration, hext, hstop, hdur, hs]
      · right
        simp [senderIteration, hext, hstop, hdur, hs, hf]
  have hfst : (senderIteration cfg st env).1 = st := by
    rcases hiter with hh | hh <;> rw [hh]
  refine ⟨hfst, ?_, ?_, ?_⟩
  · rcases hiter with hh | hh <;> rw [hh]
    · left; rfl
    · right; rfl
  · rw [hfst]; exact hstop
  · intro envs
    show (let st1 := (senderIteration cfg st env).1;
      if st1.returned then st1 else senderRun cfg st1 envs) = senderRun cfg st envs
    rw [hfst]
    simp [hret]

/-- C6: a RunWindow of zero duration is an unbounded run.  With
`duration = 0`, over every schedule of loop passes, the sender never
fires the StopSignal from its duration check, and it stops (returns)
only if some pass saw the StopSignal fired externally. -/
theorem zero_duration_never_self_stops (cfg : SenderConfig) (st : SenderState)
    (envs : List SenderEnv)
    (hdur : cfg.duration = 0)
    (hfired : st.firedByDuration = false)
    (hret : st.returned = false)
    (hstop : st.stopClosed = false) :
    (senderRun cfg st envs).firedByDuration = false ∧
    ((senderRun cfg st envs).returned = true →
      ∃ env ∈ envs, env.externalStop = true) := by
  induction envs generalizing st with
  | nil =>
    refine ⟨hfired, ?_⟩
    intro hcontra
    rw [senderRun, hret] at hcontra
    cases hcontra
  | cons env envs ih =>
    rcases hx : env.externalStop with _ | _
    · -- no external stop before this pass: the pass either warns or sends
      have hiter1 : (senderIteration cfg st env).1.stopClosed = false ∧
          (senderIteration cfg st env).1.firedByDuration = false ∧
          (senderIteration cfg st env).1.returned = false := by
        rcases hs : env.serializeOk with _ | _ <;> rcases ht : env.transmitOk with _ | _ <;>
          simp [senderIteration, hx, hstop, hdur, hs, ht, hfired, hret]
      obtain ⟨h1, h2, h3⟩ := hiter1
      have hrec := ih (senderIteration cfg st env).1 h2 h3 h1
      rw [senderRun]
      simp only [h3, if_false]
      refine ⟨hrec.1, ?_⟩
      intro hcontra
      obtain ⟨e, he1, he2⟩ := hrec.2 hcontra
      exact ⟨e, List.mem_cons_of_mem env he1, he2⟩
    · -- the StopSignal was fired externally: the pass observes it and returns
      have hiter2 : senderIteration cfg st env =
          ({ st with stopClosed := true, returned := true }, IterEffect.exitedOnStop) := by
        simp [senderIteration, hx]
      rw [senderRun, hiter2]
      refine ⟨hfired, ?_⟩
      intro _
      exact ⟨env, List.mem_cons_self env envs, hx⟩

/-- Witness for C5: a serialization failure on the very first pass of an
indefinite run leaves the launch state untouched and drops out of the
run. -/
theorem failed_iteration_no_effect_witness :
    (senderIteration sampleConfig senderInit ⟨false, 5, false, true⟩).1 = senderInit ∧
    ((senderIteration sampleConfig senderInit ⟨false, 5, false, true⟩).2 =
        IterEffect.warnedSerialize ∨
      (senderIteration sampleConfig senderInit ⟨false, 5, false, true⟩).2 =
        IterEffect.warnedSend) ∧
    (senderIteration sampleConfig senderInit ⟨false, 5, false, true⟩).1.stopClosed = false ∧
    senderRun sampleConfig senderInit [⟨false, 5, false, true⟩] =
      senderRun sampleConfig senderInit [] := by
  have h := failed_iteration_no_effect sampleConfig senderInit ⟨false, 5, false, true⟩
    rfl rfl rfl (by decide) (Or.inl rfl)
  exact ⟨h.1, h.2.1, h.2.2.1, h.2.2.2 []⟩

/-- Witness for C6: two successful passes of a zero-duration run leave
the sender running with nothing fired. -/
theorem zero_duration_never_self_stops_witness :
    (senderRun sampleConfig senderInit
      [⟨false, 100, true, true⟩, ⟨false, 200, true, true⟩]).firedByDuration = false ∧
    ((senderRun sampleConfig senderInit
      [⟨false, 100, true, true⟩, ⟨false, 200, true, true⟩]).returned = true →
      ∃ env ∈ [(⟨false, 100, true, true⟩ : SenderEnv), ⟨false, 200, true, true⟩],
        env.externalStop = true) :=
  zero_duration_never_self_stops sampleConfig senderInit
    [⟨false, 100, true, true⟩, ⟨false, 200, true, true⟩] rfl rfl rfl rfl

/-- Splitting a schedule: running a concatenation is running the first
part, then the second from where the first left off. -/
theorem aggRun_append (s : AggState) (l1 l2 : List AggOp) :
    aggRun s (l1 ++ l2) = Option.bind (aggRun s l1) (fun s1 => aggRun s1 l2) := by
  induction l1 generalizing s with
  | nil => simp [aggRun]
  | cons op ops ih =>
    simp only [List.cons_append, aggRun]
    cases aggStep s op with
    | none => rfl
    | some s1 => exact ih s1

/-- The completed adds of a cons split off the head operation. -/
theorem addsOf_cons (op : AggOp) (ops : List AggOp) :
    addsOf (op :: ops) = addsOf [op] ++ addsOf ops := by
  cases op <;> simp [addsOf]

/-- The completed adds of a concatenation. -/
theorem addsOf_append (l1 l2 : List AggOp) :
    addsOf (l1 ++ l2) = addsOf l1 ++ addsOf l2 := by
  induction l1 with
  | nil => rfl
  | cons op ops ih =>
    rw [List.cons_append, addsOf_cons, ih, addsOf_cons op ops, List.append_assoc]

/-- Every enabled small step preserves the consistency invariant,
extending the completed adds by the adds the step completes. -/
theorem aggStep_inv (s s1 : AggState) (op : AggOp) (adds : List Nat)
    (h : aggStep s op = some s1) (hinv : AggInv s adds) :
    AggInv s1 (adds ++ addsOf [op]) := by
  obtain ⟨h1, h2, h3⟩ := hinv
  cases op with
  | senderLock =>
    rw [aggStep] at h
    split_ifs at h with hc
    cases h
    exact ⟨by simpa [addsOf] using h1, by simpa [addsOf] using h2, fun _ => rfl⟩
  | senderIncPackets =>
    rw [aggStep] at h
    split_ifs at h with hc
    cases h
    refine ⟨?_, by simpa [addsOf] using h2, fun _ => hc.1⟩
    simp only [addsOf, List.append_nil]
    rw [h1, hc.2]
    simp
  | senderIncBytes n =>
    rw [aggStep] at h
    split_ifs at h with hc
    cases h
    refine ⟨?_, ?_, ?_⟩
    · simp only [addsOf]
      rw [h1, hc.2]
      simp
    · simp only [addsOf]
      rw [h2]
      simp
    · intro hff
      cases hff
  | senderUnlock =>
    rw [aggStep] at h
    split_ifs at h with hc
    cases h
    refine ⟨by simpa [addsOf] using h1, by simpa [addsOf] using h2, ?_⟩
    intro hmm
    exact absurd hmm (by simp [hc.2])
  | readerLock =>
    rw [aggStep] at h
    split_ifs at h with hc
    cases h
    refine ⟨by simpa [addsOf] using h1, by simpa [addsOf] using h2, ?_⟩
    intro hmm
    have := h3 hmm
    rw [hc] at this
    cases this
  | readerRead =>
    rw [aggStep] at h
    split_ifs at h with hc
    cases h
    refine ⟨by simpa [addsOf] using h1, by simpa [addsOf] using h2, ?_⟩
    intro hmm
    have := h3 hmm
    rw [hc] at this
    cases this
  | readerUnlock =>
    rw [aggStep] at h
    split_ifs at h with hc
    cases h
    refine ⟨by simpa [addsOf] using h1, by simpa [addsOf] using h2, ?_⟩
    intro hmm
    have := h3 hmm
    rw [hc] at this
    cases this

/-- Every reachable state of a schedule satisfies the consistency
invariant. -/
theorem aggRun_inv (ops : List AggOp) (s0 s : AggState) (adds : List Nat)
    (h0 : AggInv s0 adds) (h : aggRun s0 ops = some s) :
    AggInv s (adds ++ addsOf ops) := by
  induction ops generalizing s0 adds with
  | nil =>
    rw [aggRun] at h
    cases h
    simpa [addsOf] using h0
  | cons op ops ih =>
    rw [aggRun] at h
    cases hstep : aggStep s0 op with
    | none => rw [hstep] at h; cases h
    | some s1 =>
      rw [hstep] at h
      have hinv1 := aggStep_inv s0 s1 op adds hstep h0
      have h2 := ih s1 (adds ++ addsOf [op]) hinv1 h
      rw [List.append_assoc, ← addsOf_append] at h2
      exact h2

/-- C7: prefix consistency of snapshots.  In every schedule interleaving
the sender's small steps with a concurrent reader, a read that the lock
discipline allows observes exactly the pair produced by the completed
adds so far — `packetsSent` is their count and `bytesSent` their sum,
never a partially updated pair — and those completed adds are a prefix
of the add sequence of the whole schedule. -/
theorem snapshot_observes_prefix_of_adds (tr1 tr2 : List AggOp) (s : AggState)
    (h : aggRun aggInit (tr1 ++ AggOp.readerRead :: tr2) = some s) :
    ∃ s1, aggRun aggInit tr1 = some s1 ∧
      s1.owner = LockOwner.reader ∧
      s1.midAdd = false ∧
      s1.packetsSent = (addsOf tr1).length ∧
      s1.bytesSent = (addsOf tr1).sum ∧
      addsOf (tr1 ++ AggOp.readerRead :: tr2) = addsOf tr1 ++ addsOf tr2 := by
  rw [aggRun_append] at h
  cases h1 : aggRun aggInit tr1 with
  | none => rw [h1] at h; cases h
  | some s1 =>
    rw [h1] at h
    have h : aggRun s1 (AggOp.readerRead :: tr2) = some s := h
    rw [aggRun] at h
    cases hstep : aggStep s1 AggOp.readerRead with
    | none => rw [hstep] at h; cases h
    | some s1' =>
      have hown : s1.owner = LockOwner.reader := by
        by_contra hc
        rw [aggStep, if_neg hc] at hstep
        cases hstep
      have hinv := aggRun_inv tr1 aggInit s1 []
        (by exact ⟨rfl, rfl, fun hff => by cases hff⟩) h1
      obtain ⟨hp, hb, hm⟩ := hinv
      have hmid : s1.midAdd = false := by
        cases hmv : s1.midAdd
        · rfl
        · have := hm hmv
          rw [hown] at this
          cases this
      refine ⟨s1, rfl, hown, hmid, ?_, ?_, ?_⟩
      · rw [hp, hmid]
        simp
      · rw [hb]
        simp
      · rw [addsOf_append, addsOf_cons]
        simp [addsOf]

/-- Witness for C7: a full add of 45 bytes, then a reader locking,
reading, and unlocking. -/
theorem snapshot_observes_prefix_of_adds_witness :
    ∃ s1, aggRun aggInit [AggOp.senderLock, AggOp.senderIncPackets, AggOp.senderIncBytes 45,
        AggOp.senderUnlock, AggOp.readerLock] = some s1 ∧
      s1.owner = LockOwner.reader ∧
      s1.midAdd = false ∧
      s1.packetsSent = (addsOf [AggOp.senderLock, AggOp.senderIncPackets,
        AggOp.senderIncBytes 45, AggOp.senderUnlock, AggOp.readerLock]).length ∧
      s1.bytesSent = (addsOf [AggOp.senderLock, AggOp.senderIncPackets,
        AggOp.senderIncBytes 45, AggOp.senderUnlock, AggOp.readerLock]).sum ∧
      addsOf ([AggOp.senderLock, AggOp.senderIncPackets, AggOp.senderIncBytes 45,
          AggOp.senderUnlock, AggOp.readerLock] ++ AggOp.readerRead :: [AggOp.readerUnlock]) =
        addsOf [AggOp.senderLock, AggOp.senderIncPackets, AggOp.senderIncBytes 45,
          AggOp.senderUnlock, AggOp.readerLock] ++ addsOf [AggOp.readerUnlock] :=
  snapshot_observes_prefix_of_adds
    [AggOp.senderLock, AggOp.senderIncPackets, AggOp.senderIncBytes 45,
      AggOp.senderUnlock, AggOp.readerLock]
    [AggOp.readerUnlock] ⟨1, 45, LockOwner.free, false⟩ (by decide)

/-- No small step ever decreases either counter. -/
theorem aggStep_mono (s s1 : AggState) (op : AggOp) (h : aggStep s op = some s1) :
    s.packetsSent ≤ s1.packetsSent ∧ s.bytesSent ≤ s1.bytesSent := by
  cases op with
  | senderIncBytes n =>
    rw [aggStep] at h
    split_ifs at h
    cases h
    exact ⟨Nat.le_refl _, Nat.le_add_right _ _⟩
  | senderIncPackets =>
    rw [aggStep] at h
    split_ifs at h
    cases h
    exact ⟨Nat.le_succ _, Nat.le_refl _⟩
  | senderLock =>
    rw [aggStep] at h
    split_ifs at h
    cases h
    exact ⟨Nat.le_refl _, Nat.le_refl _⟩
  | senderUnlock =>
    rw [aggStep] at h
    split_ifs at h
    cases h
    exact ⟨Nat.le_refl _, Nat.le_refl _⟩
  | readerLock =>
    rw [aggStep] at h
    split_ifs at h
    cases h
    exact ⟨Nat.le_refl _, Nat.le_refl _⟩
  | readerRead =>
    rw [aggStep] at h
    split_ifs at h
    cases h
    exact ⟨Nat.le_refl _, Nat.le_refl _⟩
  | readerUnlock =>
    rw [aggStep] at h
    split_ifs at h
    cases h
    exact ⟨Nat.le_refl _, Nat.le_refl _⟩

/-- Along any schedule the counters never decrease. -/
theorem aggRun_mono (ops : List AggOp) (s0 s : AggState) (h : aggRun s0 ops = some s) :
    s0.packetsSent ≤ s.packetsSent ∧ s0.bytesSent ≤ s.bytesSent := by
  induction ops generalizing s0 with
  | nil =>
    rw [aggRun] at h
    cases h
    exact ⟨Nat.le_refl _, Nat.le_refl _⟩
  | cons op ops ih =>
    rw [aggRun] at h
    cases hstep : aggStep s0 op with
    | none => rw [hstep] at h; cases h
    | some s1 =>
      rw [hstep] at h
      have h1 := aggStep_mono s0 s1 op hstep
      have h2 := ih s1 h
      exact ⟨Nat.le_trans h1.1 h2.1, Nat.le_trans h1.2 h2.2⟩

/-- C9: the counters are monotonically non-decreasing over the whole
run: whenever a schedule extends to a longer one, the counters at the
end of the extension are at least the counters at the end of the
original — every operation on them is an increment under the lock and
nothing ever decrements either counter. -/
theorem counters_monotone (tr tr' : List AggOp) (s s' : AggState)
    (h : aggRun aggInit tr = some s)
    (h' : aggRun aggInit (tr ++ tr') = some s') :
    s.packetsSent ≤ s'.packetsSent ∧ s.bytesSent ≤ s'.bytesSent := by
  rw [aggRun_append, h] at h'
  have h' : aggRun s tr' = some s' := h'
  exact aggRun_mono tr' s s' h'

/-- Witness for C9: one completed add extended by a second one. -/
theorem counters_monotone_witness :
    (⟨1, 45, LockOwner.free, false⟩ : AggState).packetsSent ≤
      (⟨2, 90, LockOwner.free, false⟩ : AggState).packetsSent ∧
    (⟨1, 45, LockOwner.free, false⟩ : AggState).bytesSent ≤
      (⟨2, 90, LockOwner.free, false⟩ : AggState).bytesSent :=
  counters_monotone
    [AggOp.senderLock, AggOp.senderIncPackets, AggOp.senderIncBytes 45, AggOp.senderUnlock]
    [AggOp.senderLock, AggOp.senderIncPackets, AggOp.senderIncBytes 45, AggOp.senderUnlock]
    ⟨1, 45, LockOwner.free, false⟩ ⟨2, 90, LockOwner.free, false⟩ (by decide) (by decide)

/-- Every completed add value of a schedule comes from a
`senderIncBytes` operation of that schedule. -/
theorem mem_of_mem_addsOf (tr : List AggOp) (n : Nat) (h : n ∈ addsOf tr) :
    AggOp.senderIncBytes n ∈ tr := by
  induction tr with
  | nil => cases h
  | cons op ops ih =>
    cases op with
    | senderIncBytes m =>
      rw [addsOf] at h
      rcases List.mem_cons.mp h with h | h
      · rw [h]
        exact List.mem_cons_self _ _
      · exact List.mem_cons_of_mem _ (ih h)
    | senderLock => exact List.mem_cons_of_mem _ (ih h)
    | senderIncPackets => exact List.mem_cons_of_mem _ (ih h)
    | senderUnlock => exact List.mem_cons_of_mem _ (ih h)
    | readerLock => exact List.mem_cons_of_mem _ (ih h)
    | readerRead => exact List.mem_cons_of_mem _ (ih h)
    | readerUnlock => exact List.mem_cons_of_mem _ (ih h)

/-- The sum of a list all of whose elements equal `c` is its length
times `c`. -/
theorem sum_of_all_eq (l : List Nat) (c : Nat) (h : ∀ x ∈ l, x = c) :
    l.sum = l.length * c := by
  induction l with
  | nil => simp
  | cons a l ih =>
    rw [List.sum_cons, List.length_cons, h a (List.mem_cons_self a l),
      ih (fun x hx => h x (List.mem_cons_of_mem a hx))]
    ring

/-- C10: every serialization of the immutable template yields a frame
of the same fixed length — 14 Ethernet + 20 IPv4 + 8 UDP header bytes
plus the payload — and in any schedule whose completed adds all carry
that frame length (as every successful transmission does, source
line 218), at every point where the sender is not mid-update (in
particular whenever the lock is free or held by a reader),
`bytesSent` equals `packetsSent` times the serialized frame length. -/
theorem bytes_eq_packets_times_frame_length (t : FrameTemplate) (tr : List AggOp)
    (s : AggState)
    (h : aggRun aggInit tr = some s)
    (hall : ∀ n, AggOp.senderIncBytes n ∈ tr → n = (buildFrame t).length)
    (hmid : s.midAdd = false) :
    (buildFrame t).length = 42 + t.payload.length ∧
    s.bytesSent = s.packetsSent * (buildFrame t).length := by
  have hlen : (buildFrame t).length = 42 + t.payload.length := by
    simp [buildFrame, ethHeader, ipv4Header, udpHeader, macBytes, ipBytes, u16Bytes,
      List.length_append]
    omega
  have hinv := aggRun_inv tr aggInit s []
    (by exact ⟨rfl, rfl, fun hff => by cases hff⟩) h
  obtain ⟨hp, hb, _⟩ := hinv
  rw [hmid] at hp
  simp only [List.nil_append, if_false, Nat.add_zero, Bool.false_eq_true] at hp hb
  refine ⟨hlen, ?_⟩
  rw [hb, hp, sum_of_all_eq (addsOf tr) (buildFrame t).length
    (fun x hx => hall x (mem_of_mem_addsOf tr x hx))]

/-- Witness for C10: two completed adds of the sample frame length with
the lock back free. -/
theorem bytes_eq_packets_times_frame_length_witness :
    (buildFrame sampleTemplate).length = 42 + sampleTemplate.payload.length ∧
    (⟨2, 90, LockOwner.free, false⟩ : AggState).bytesSent =
      (⟨2, 90, LockOwner.free, false⟩ : AggState).packetsSent *
        (buildFrame sampleTemplate).length :=
  bytes_eq_packets_times_frame_length sampleTemplate
    [AggOp.senderLock, AggOp.senderIncPackets, AggOp.senderIncBytes 45, AggOp.senderUnlock,
      AggOp.senderLock, AggOp.senderIncPackets, AggOp.senderIncBytes 45, AggOp.senderUnlock]
    ⟨2, 90, LockOwner.free, false⟩ (by decide)
    (by
      intro n hn
      simp at hn
      subst hn
      decide) rfl

/-- C8: on each reporter tick the computed interval packet count is
current minus previous packets, the interval byte count is current
minus previous bytes, the interval bitrate satisfies
bitrate × 10^6 × interval = interval bytes × 8 (the printed value is in
Mbps, i.e. the spec formula bytes × 8 / interval divided by 10^6), the
cumulative average packet rate satisfies rate × elapsed = current
packets, both divisors are nonzero (interval ≥ 1 second, positive
elapsed time), and an interval with zero bytes reports bitrate 0. -/
theorem reporter_tick_formulas (reportInterval : Nat) (elapsedSec : ℚ)
    (packetsSent bytesSent : Nat) (st : ReporterState)
    (hi : 1 ≤ reportInterval) (he : 0 < elapsedSec)
    (hp : st.lastPackets ≤ packetsSent) (hb : st.lastBytes ≤ bytesSent) :
    ((reporterTick reportInterval elapsedSec packetsSent bytesSent st).intervalPackets : ℤ) =
      (packetsSent : ℤ) - (st.lastPackets : ℤ) ∧
    ((reporterTick reportInterval elapsedSec packetsSent bytesSent st).intervalBytes : ℤ) =
      (bytesSent : ℤ) - (st.lastBytes : ℤ) ∧
    ((reportInterval : Nat) : ℚ) ≠ 0 ∧
    elapsedSec ≠ 0 ∧
    (reporterTick reportInterval elapsedSec packetsSent bytesSent st).bitrateMbps *
        1000000 * ((reportInterval : Nat) : ℚ) =
      ((reporterTick reportInterval elapsedSec packetsSent bytesSent st).intervalBytes : ℚ) * 8 ∧
    (reporterTick reportInterval elapsedSec packetsSent bytesSent st).avgPacketRate *
        elapsedSec = (packetsSent : ℚ) ∧
    ((reporterTick reportInterval elapsedSec packetsSent bytesSent st).intervalBytes = 0 →
      (reporterTick reportInterval elapsedSec packetsSent bytesSent st).bitrateMbps = 0) := by
  have hR : ((reportInterval : Nat) : ℚ) ≠ 0 := by
    have h0 : 0 < reportInterval := by omega
    exact ne_of_gt (by exact_mod_cast h0)
  simp only [reporterTick]
  refine ⟨?_, ?_, hR, ne_of_gt he, ?_, ?_, ?_⟩
  · exact Nat.cast_sub hp
  · exact Nat.cast_sub hb
  · field_simp
    ring
  · exact div_mul_cancel₀ _ (ne_of_gt he)
  · intro h0
    rw [h0]
    simp

/-- Witness for C8: a 1-second tick at 2 seconds elapsed, snapshot
(5, 700) against a previous snapshot (2, 300). -/
theorem reporter_tick_formulas_witness :
    ((reporterTick 1 2 5 700 ⟨2, 300⟩).intervalPackets : ℤ) = ((5 : Nat) : ℤ) - ((2 : Nat) : ℤ) ∧
    ((reporterTick 1 2 5 700 ⟨2, 300⟩).intervalBytes : ℤ) =
      ((700 : Nat) : ℤ) - ((300 : Nat) : ℤ) ∧
    (((1 : Nat) : Nat) : ℚ) ≠ 0 ∧
    (2 : ℚ) ≠ 0 ∧
    (reporterTick 1 2 5 700 ⟨2, 300⟩).bitrateMbps * 1000000 * (((1 : Nat) : Nat) : ℚ) =
      ((reporterTick 1 2 5 700 ⟨2, 300⟩).intervalBytes : ℚ) * 8 ∧
    (reporterTick 1 2 5 700 ⟨2, 300⟩).avgPacketRate * 2 = ((5 : Nat) : ℚ) ∧
    ((reporterTick 1 2 5 700 ⟨2, 300⟩).intervalBytes = 0 →
      (reporterTick 1 2 5 700 ⟨2, 300⟩).bitrateMbps = 0) :=
  reporter_tick_formulas 1 2 5 700 ⟨2, 300⟩ (by decide) (by decide) (by decide) (by decide)
